import Mathlib

/-!
Verification of the Traefik configuration validator
(`validate_traefik.py`: `validate_traefik_config` and `auto_correct_config`).

The configuration document is the in-memory form of a parsed YAML file: an
untyped tree of mappings, sequences and scalars.  We embed it as the
inductive type `Value`; mappings are association lists preserving insertion
order (the Python dicts are string-keyed and insertion-order preserving).

Python exceptions are modelled by `Option`: a function returns `none`
exactly when the Python code would raise (`UnboundLocalError`,
`AttributeError`, `TypeError`...).  The embedding follows the source
statement by statement, including its quirks:

* the local `references_noninternal_service` is assigned only under
  `if routers:` yet read unconditionally afterwards, so it carries a stale
  value across loop iterations and is unbound when the first non-skipped
  section has an empty `routers` mapping (modelled by threading an
  `Option Bool` cell through the section loop);
* the cross-check reads `router_config.get('service')` -- the leaked loop
  variable holding the LAST router of the section -- instead of the
  current `router`;
* `service_name not in services` is Python `in`, which raises `TypeError`
  when `services` is neither a mapping, a sequence nor a string.

In string literals, `\x27` is the ASCII apostrophe.
-/

inductive Value : Type where
  | null : Value
  | bool : Bool → Value
  | int : Int → Value
  | str : String → Value
  | seq : List Value → Value
  | map : List (String × Value) → Value

abbrev Doc := List (String × Value)

/-!
Core `String` operations (`toUpper`, `trim`, `endsWith`, substring
search) are implemented here over `String.data` character lists, because
the library versions are defined on byte positions and do not reduce in
the kernel.  They agree with the Python operations on the ASCII strings
this program manipulates.
-/

/-- Python `s.upper()` (ASCII). -/
def upperStr (s : String) : String := String.mk (s.data.map Char.toUpper)

/-- Python `s.strip()`. -/
def trimStr (s : String) : String :=
  String.mk (((s.data.dropWhile Char.isWhitespace).reverse.dropWhile
    Char.isWhitespace).reverse)

/-- Python `s.endswith(suf)`. -/
def endsWithStr (s suf : String) : Bool := suf.data.isSuffixOf s.data

def isInfixL (needle : List Char) : List Char → Bool
  | [] => needle.isPrefixOf []
  | h :: t => needle.isPrefixOf (h :: t) || isInfixL needle t

/-- First-occurrence lookup in an association list (Python dict access). -/
def lookupV : Doc → String → Option Value
  | [], _ => none
  | (k, v) :: t, key => if k = key then some v else lookupV t key

/-- Python `key in d` for a dict `d`. -/
def hasKeyV (d : Doc) (k : String) : Bool := (lookupV d k).isSome

/-- Python truthiness of a value. -/
def truthy : Value → Bool
  | .null => false
  | .bool b => b
  | .int n => n != 0
  | .str s => s != ""
  | .seq l => !l.isEmpty
  | .map m => !m.isEmpty

def isMap : Value → Bool
  | .map _ => true
  | _ => false

def isStr : Value → Bool
  | .str _ => true
  | _ => false

def isNull : Value → Bool
  | .null => true
  | _ => false

/-- Python `d.get(k)` (default `None`); also models `d[k]` at call sites
where the key is known to be present. -/
def pyGet (m : Doc) (k : String) : Value := (lookupV m k).getD .null

/-- Python `d.get(k, dflt)`. -/
def pyGetD (m : Doc) (k : String) (dflt : Value) : Value := (lookupV m k).getD dflt

/-- Substring test: Python `needle in hay` for strings. -/
def strContains (hay needle : String) : Bool := isInfixL needle.data hay.data

/-- Python `s in v` for a string `s`: key membership for a dict, element
equality for a list, substring for a string, `TypeError` (`none`)
otherwise. -/
def pyIn (s : String) : Value → Option Bool
  | .map m => some (hasKeyV m s)
  | .seq l => some (l.any fun v => match v with | .str t => t == s | _ => false)
  | .str t => some (strContains t s)
  | _ => none

/-- Python `set(d.keys()) <= {'middlewares'}`. -/
def mwOnly (m : Doc) : Bool := m.all fun p => p.1 == "middlewares"

/-- Python `set(d.keys()) <= {'middlewares', 'services'}`. -/
def mwSvcOnly (m : Doc) : Bool :=
  m.all fun p => p.1 == "middlewares" || p.1 == "services"

/-- Value of the leaked loop variable `router_config` after
`for router_name, router_config in routers.items()`. -/
def lastVal : List (String × Value) → Value
  | [] => .null
  | [p] => p.2
  | _ :: q :: t => lastVal (q :: t)

/-! ## Error message strings (from the source, `\x27` = apostrophe) -/

def noConfigMsg : String :=
  "No Traefik configuration found (missing http, tcp, udp, or entryPoints sections)"

def epMsg : String := "Missing or empty \x27entryPoints\x27 configuration."

def secNotDictMsg (sec : String) : String :=
  "Section \x27" ++ (sec ++ "\x27 is not a valid dictionary.")

def routersNotDictMsg (sec : String) : String :=
  "\x27routers\x27 in section \x27" ++ (sec ++ "\x27 is not a valid dictionary.")

def routerNotDictMsg (rn U : String) : String :=
  "Router \x27" ++ (rn ++ ("\x27 in " ++ (U ++ " is not a valid dictionary.")))

def ruleMissingMsg (rn U : String) : String :=
  "Router \x27" ++ (rn ++ ("\x27 in " ++ (U ++ " has a missing, empty, or invalid rule.")))

def ruleTypeMsg (rn U : String) : String :=
  "Router \x27" ++ (rn ++ ("\x27 in " ++ (U ++ " has an invalid rule type (must be a string).")))

def svcTypeMsg (rn U : String) : String :=
  "Router \x27" ++ (rn ++ ("\x27 in " ++ (U ++ " has an invalid service name type.")))

def undefSvcMsg (rn U sv : String) : String :=
  "Router \x27" ++ (rn ++ ("\x27 in " ++ (U ++ (" references undefined service \x27" ++ (sv ++ "\x27.")))))

def missingServicesMsg (U : String) : String :=
  "Missing or empty \x27services\x27 in " ++
    (U ++ " configuration, but at least one router references a non-internal service.")

def missingRoutersMsg (U : String) : String :=
  "Missing \x27routers\x27 in " ++ (U ++ " configuration, but \x27services\x27 are defined.")

/-! ## The validator -/

/-- `not rule or not isinstance(rule, str) or not rule.strip()`
(line 106 of the source). -/
def ruleBadHttpTcp (rule : Value) : Bool :=
  !truthy rule || !isStr rule ||
    (match rule with | .str s => trimStr s == "" | _ => false)

/-- Per-router loop of the validator (source lines 97-124), accumulating
error strings; `none` models the `TypeError` raised by
`service_name not in services` when `services` is not a container. -/
def routerChecks (sec U : String) (services : Value) :
    List (String × Value) → List String → Option (List String)
  | [], errs => some errs
  | (rn, rc) :: rest, errs =>
    match rc with
    | .map rcm =>
      let rule := pyGet rcm "rule"
      let errs1 :=
        if sec == "http" || sec == "tcp" then
          if ruleBadHttpTcp rule then errs ++ [ruleMissingMsg rn U] else errs
        else if sec == "udp" && !isNull rule && !isStr rule then
          errs ++ [ruleTypeMsg rn U]
        else if truthy rule && !isStr rule then
          errs ++ [ruleTypeMsg rn U]
        else errs
      let serviceName := pyGet rcm "service"
      if truthy serviceName then
        match serviceName with
        | .str sv =>
          if !(endsWithStr sv "@internal") then
            match pyIn sv services with
            | none => none
            | some b =>
              routerChecks sec U services rest
                (if b then errs1 else errs1 ++ [undefSvcMsg rn U sv])
          else routerChecks sec U services rest errs1
        | _ => routerChecks sec U services rest (errs1 ++ [svcTypeMsg rn U])
      else routerChecks sec U services rest errs1
    | _ => routerChecks sec U services rest (errs ++ [routerNotDictMsg rn U])

/-- `isinstance(router, dict) and 'service' in router and router['service']`
(source line 130). -/
def routerGuard (r : Value) : Bool :=
  match r with
  | .map rm => hasKeyV rm "service" && truthy (pyGet rm "service")
  | _ => false

/-- The `for router in routers.values()` loop of the cross-check
(source lines 129-135).  `lastCfg` is the leaked `router_config`; reading
`.get` on it when it is not a dict raises (`none`). -/
def refLoop (lastCfg : Value) : List Value → Option Bool
  | [] => some false
  | r :: rest =>
    if routerGuard r then
      match lastCfg with
      | .map lm =>
        match pyGet lm "service" with
        | .str sv =>
          if !(endsWithStr sv "@internal") then some true else refLoop lastCfg rest
        | _ => refLoop lastCfg rest
      | _ => none
    else refLoop lastCfg rest

/-- One iteration of `for section in ['http', 'tcp', 'udp']` in the
validator (source lines 78-146).  The state is the accumulated error list
together with the `references_noninternal_service` cell: `none` when the
variable is still unbound, so reading it at line 137 with an empty
`routers` mapping is the `UnboundLocalError` (result `none`). -/
def sectionStep (cfg : Doc) (st : List String × Option Bool) (sec : String) :
    Option (List String × Option Bool) :=
  match lookupV cfg sec with
  | none => some st
  | some sc =>
    match sc with
    | .map scm =>
      if mwOnly scm then some st
      else
        let U := upperStr sec
        let routers := pyGetD scm "routers" (.map [])
        let services := pyGetD scm "services" (.map [])
        match routers with
        | .map rl =>
          match routerChecks sec U services rl st.1 with
          | none => none
          | some errs1 =>
            let refCell :=
              if rl.isEmpty then st.2 else refLoop (lastVal rl) (rl.map Prod.snd)
            match refCell with
            | none => none
            | some refN =>
              let errs2 :=
                if refN then
                  if !hasKeyV scm "services" || !isMap (pyGet scm "services") ||
                      !truthy (pyGet scm "services") then
                    errs1 ++ [missingServicesMsg U]
                  else errs1
                else errs1
              let errs3 :=
                if hasKeyV scm "services" && truthy (pyGet scm "services") &&
                    !hasKeyV scm "routers" then
                  if !mwSvcOnly scm then errs2 ++ [missingRoutersMsg U] else errs2
                else errs2
              some (errs3, some refN)
        | _ => some (st.1 ++ [routersNotDictMsg sec], st.2)
    | _ => some (st.1 ++ [secNotDictMsg sec], st.2)

def sectionsFold (cfg : Doc) : List String → (List String × Option Bool) →
    Option (List String × Option Bool)
  | [], st => some st
  | n :: rest, st =>
    match sectionStep cfg st n with
    | none => none
    | some st' => sectionsFold cfg rest st'

/-- The entryPoints gate (source lines 66-69): the error list after the
`Missing or empty 'entryPoints'` check. -/
def epErrs (config : Doc) : List String :=
  let hasHttpTcpUdp :=
    hasKeyV config "http" || hasKeyV config "tcp" || hasKeyV config "udp"
  let hasEntrypoints := hasKeyV config "entryPoints"
  let ep := pyGet config "entryPoints"
  if !hasEntrypoints || !isMap ep || !truthy ep then
    if hasHttpTcpUdp || (hasEntrypoints && (!isMap ep || !truthy ep)) then
      [epMsg]
    else []
  else []

/-- `validate_traefik_config` (source lines 47-148).  Returns `none` when
the Python function raises. -/
def validate_traefik_config (config : Doc) : Option (List String) :=
  if config.isEmpty then some []
  else
    let hasHttpTcpUdp :=
      hasKeyV config "http" || hasKeyV config "tcp" || hasKeyV config "udp"
    let hasEntrypoints := hasKeyV config "entryPoints"
    if !hasHttpTcpUdp && !hasEntrypoints then some [noConfigMsg]
    else
      let ep := pyGet config "entryPoints"
      let errs0 : List String := epErrs config
      if hasEntrypoints && !truthy ep && !hasHttpTcpUdp &&
          (errs0.contains epMsg || !isMap ep) then
        some [noConfigMsg]
      else
        (sectionsFold config ["http", "tcp", "udp"] (errs0, none)).map Prod.fst

/-! ## The auto-corrector -/

/-- The corrector's non-internal-reference test for one router
(source lines 168-172): note it reads the current `router`, not the
leaked `router_config`, and counts any truthy value that is not an
`@internal` string. -/
def corrGuard (r : Value) : Bool :=
  match r with
  | .map rm =>
    hasKeyV rm "service" && truthy (pyGet rm "service") &&
      !(match pyGet rm "service" with
        | .str s => endsWithStr s "@internal"
        | _ => false)
  | _ => false

/-- Source lines 161-163: `if ('services' in section_config or 'routers'
in section_config) and 'routers' not in section_config:
section_config['routers'] = {}` (dict insertion appends at the end). -/
def fixRouters (m : Doc) : Doc :=
  if (hasKeyV m "services" || hasKeyV m "routers") && !hasKeyV m "routers" then
    m ++ [("routers", Value.map [])]
  else m

/-- Source lines 165-174: compute `references_noninternal_service` over
`routers.values()` and insert an empty `services` mapping when it holds
and the key is absent. -/
def fixServices (m1 : Doc) (rl : List (String × Value)) : Doc :=
  if (rl.any fun p => corrGuard p.2) && !hasKeyV m1 "services" then
    m1 ++ [("services", Value.map [])]
  else m1

/-- Body of one section iteration of `auto_correct_config`
(source lines 155-174), producing the new section value.  `none` models
the `AttributeError` from `.keys()` on a non-dict section or from
`.values()` on a non-dict `routers`. -/
def fixSection : Value → Option Value
  | .map m =>
    if mwOnly m then some (.map m)
    else
      match pyGetD (fixRouters m) "routers" (.map []) with
      | .map rl => some (.map (fixServices (fixRouters m) rl))
      | _ => none
  | _ => none

/-- In-place update of the (first occurrence of the) given key. -/
def setFirst : Doc → String → Value → Doc
  | [], _, _ => []
  | (k, w) :: t, key, v =>
    if k = key then (k, v) :: t else (k, w) :: setFirst t key v

def correctSection (cfg : Doc) (sec : String) : Option Doc :=
  match lookupV cfg sec with
  | none => some cfg
  | some sc =>
    match fixSection sc with
    | none => none
    | some sc' => some (setFirst cfg sec sc')

/-- `auto_correct_config` (source lines 150-176).  Returns `none` when the
Python function raises. -/
def auto_correct_config (config : Doc) : Option Doc :=
  match correctSection config "http" with
  | none => none
  | some c1 =>
    match correctSection c1 "tcp" with
    | none => none
    | some c2 => correctSection c2 "udp"

/-! ## Predicates for the corrector's frame property -/

/-- The top-level protocol-section keys. -/
def protoKey (k : String) : Prop := k = "http" ∨ k = "tcp" ∨ k = "udp"

/-- `sc'` is `sc` with only empty `routers`/`services` containers appended,
and the section is not middleware-only. -/
def SectionExt (sc sc' : Value) : Prop :=
  ∃ m t, sc = Value.map m ∧ sc' = Value.map (m ++ t) ∧ t ≠ [] ∧
    mwOnly m = false ∧
    ∀ p ∈ t, (p.1 = "routers" ∨ p.1 = "services") ∧ p.2 = Value.map []

/-- Per-entry relation between an input document and the corrector's
output: the key is unchanged, and the value is either untouched or (for a
protocol section) only extended by inserted empty containers. -/
def FrameRel (p q : String × Value) : Prop :=
  p.1 = q.1 ∧ (q.2 = p.2 ∨ (protoKey p.1 ∧ SectionExt p.2 q.2))

/-! ## Association-list and corrector lemmas -/

theorem lookupV_eq_none_iff {m : Doc} {k : String} :
    lookupV m k = none ↔ hasKeyV m k = false := by
  unfold hasKeyV
  cases h : lookupV m k <;> simp [h]

theorem lookupV_append (m m2 : Doc) (k : String) :
    lookupV (m ++ m2) k =
      match lookupV m k with
      | some v => some v
      | none => lookupV m2 k := by
  induction m with
  | nil => simp [lookupV]
  | cons a t ih =>
    obtain ⟨ka, w⟩ := a
    by_cases hk : ka = k
    · simp [lookupV, hk]
    · simp [lookupV, hk, ih]

theorem hasKeyV_append (m m2 : Doc) (k : String) :
    hasKeyV (m ++ m2) k = (hasKeyV m k || hasKeyV m2 k) := by
  unfold hasKeyV
  rw [lookupV_append]
  cases h : lookupV m k <;> simp

theorem lookupV_append_left {m : Doc} {k : String} (m2 : Doc)
    (h : hasKeyV m k = true) : lookupV (m ++ m2) k = lookupV m k := by
  rw [lookupV_append]
  unfold hasKeyV at h
  cases hl : lookupV m k with
  | none => rw [hl] at h; simp at h
  | some v => simp

theorem lookupV_append_right {m : Doc} {k : String} (m2 : Doc)
    (h : hasKeyV m k = false) : lookupV (m ++ m2) k = lookupV m2 k := by
  rw [lookupV_append, lookupV_eq_none_iff.mpr h]

theorem mwOnly_append (m t : Doc) :
    mwOnly (m ++ t) = (mwOnly m && mwOnly t) := by
  simp [mwOnly, List.all_append]

theorem lookupV_setFirst_self {cfg : Doc} {k : String} (v : Value)
    (h : hasKeyV cfg k = true) : lookupV (setFirst cfg k v) k = some v := by
  induction cfg with
  | nil => simp [hasKeyV, lookupV] at h
  | cons a t ih =>
    obtain ⟨ka, w⟩ := a
    by_cases hk : ka = k
    · simp [setFirst, hk, lookupV]
    · simp only [hasKeyV, lookupV, hk, if_false] at h
      simp [setFirst, hk, lookupV, ih h]

theorem lookupV_setFirst_ne (cfg : Doc) {k k' : String} (v : Value)
    (h : k' ≠ k) : lookupV (setFirst cfg k v) k' = lookupV cfg k' := by
  induction cfg with
  | nil => simp [setFirst]
  | cons a t ih =>
    obtain ⟨ka, w⟩ := a
    by_cases hk : ka = k
    · subst hk
      have hka : ka ≠ k' := fun hh => h (hh.symm)
      simp [setFirst, lookupV, hka]
    · simp [setFirst, hk, lookupV, ih]

theorem setFirst_self {cfg : Doc} {k : String} {v : Value}
    (h : lookupV cfg k = some v) : setFirst cfg k v = cfg := by
  induction cfg with
  | nil => simp [lookupV] at h
  | cons a t ih =>
    obtain ⟨ka, w⟩ := a
    by_cases hk : ka = k
    · simp only [lookupV, hk, if_true] at h
      have hwv : w = v := by injection h
      subst hwv
      simp [setFirst, hk]
    · simp only [lookupV, hk, if_false] at h
      simp [setFirst, hk, ih h]

theorem fixRouters_eq_of_hasKey {m : Doc} (h : hasKeyV m "routers" = true) :
    fixRouters m = m := by
  simp [fixRouters, h]

theorem hasKeyV_fixRouters_routers (m : Doc) :
    hasKeyV (fixRouters m) "routers" =
      (hasKeyV m "routers" || hasKeyV m "services") := by
  unfold fixRouters
  by_cases hr : hasKeyV m "routers" = true
  · simp [hr]
  · rw [Bool.not_eq_true] at hr
    by_cases hs : hasKeyV m "services" = true
    · have h1 : hasKeyV [("routers", Value.map [])] "routers" = true := by decide
      simp [hr, hs, hasKeyV_append, h1]
    · rw [Bool.not_eq_true] at hs
      simp [hr, hs]

theorem hasKeyV_fixRouters_services (m : Doc) :
    hasKeyV (fixRouters m) "services" = hasKeyV m "services" := by
  unfold fixRouters
  split
  · rw [hasKeyV_append]
    simp [hasKeyV, lookupV]
  · rfl

theorem mwOnly_fixRouters_of_false {m : Doc} (h : mwOnly m = false) :
    mwOnly (fixRouters m) = false := by
  unfold fixRouters
  split
  · rw [mwOnly_append]; simp [h]
  · exact h

theorem mwOnly_fixServices_of_false {m1 : Doc} {rl : List (String × Value)}
    (h : mwOnly m1 = false) : mwOnly (fixServices m1 rl) = false := by
  unfold fixServices
  split
  · rw [mwOnly_append]; simp [h]
  · exact h

theorem hasKeyV_fixServices_mono {m1 : Doc} (rl : List (String × Value))
    {k : String} (h : hasKeyV m1 k = true) :
    hasKeyV (fixServices m1 rl) k = true := by
  unfold fixServices
  split
  · rw [hasKeyV_append]; simp [h]
  · exact h

theorem hasKeyV_fixServices_services {m1 : Doc} {rl : List (String × Value)}
    (h : (rl.any fun p => corrGuard p.2) = true) :
    hasKeyV (fixServices m1 rl) "services" = true := by
  unfold fixServices
  by_cases hs : hasKeyV m1 "services" = true
  · simp [hs]
  · rw [Bool.not_eq_true] at hs
    have h1 : hasKeyV [("services", Value.map [])] "services" = true := by decide
    simp [h, hs, hasKeyV_append, h1]

theorem fixServices_of_hasKey {m1 : Doc} (rl : List (String × Value))
    (h : hasKeyV m1 "services" = true) : fixServices m1 rl = m1 := by
  unfold fixServices
  simp [h]

theorem fixServices_of_notAny {m1 : Doc} {rl : List (String × Value)}
    (h : (rl.any fun p => corrGuard p.2) = false) : fixServices m1 rl = m1 := by
  unfold fixServices
  simp [h]

theorem lookupV_fixServices_of_hasKey {m1 : Doc} (rl : List (String × Value))
    {k : String} (h : hasKeyV m1 k = true) :
    lookupV (fixServices m1 rl) k = lookupV m1 k := by
  unfold fixServices
  split
  · exact lookupV_append_left _ h
  · rfl

/-- Running the corrector's section body on its own output changes
nothing. -/
theorem fixSection_idem {sc sc' : Value} (h : fixSection sc = some sc') :
    fixSection sc' = some sc' := by
  cases sc with
  | map m =>
    by_cases hmw : mwOnly m = true
    · simp [fixSection, hmw] at h
      subst h
      simp [fixSection, hmw]
    · rw [Bool.not_eq_true] at hmw
      simp only [fixSection, hmw] at h
      by_cases hkr : hasKeyV (fixRouters m) "routers" = true
      · -- `routers` resolves to the stored value
        cases hlr : lookupV (fixRouters m) "routers" with
        | none => rw [lookupV_eq_none_iff] at hlr; rw [hlr] at hkr; cases hkr
        | some rv =>
          rw [show pyGetD (fixRouters m) "routers" (.map []) = rv by
            simp [pyGetD, hlr]] at h
          cases rv with
          | null => simp at h
          | bool b => simp at h
          | int n => simp at h
          | str s => simp at h
          | seq l => simp at h
          | map rl =>
          simp at h
          subst h
          -- the corrected section value
          have hm2r : hasKeyV (fixServices (fixRouters m) rl) "routers" = true :=
            hasKeyV_fixServices_mono rl hkr
          have hmw2 : mwOnly (fixServices (fixRouters m) rl) = false :=
            mwOnly_fixServices_of_false (mwOnly_fixRouters_of_false hmw)
          simp only [fixSection, hmw2]
          rw [fixRouters_eq_of_hasKey hm2r]
          have hlr2 : lookupV (fixServices (fixRouters m) rl) "routers" =
              some (.map rl) := by
            rw [lookupV_fixServices_of_hasKey rl hkr, hlr]
          rw [show pyGetD (fixServices (fixRouters m) rl) "routers" (.map []) =
              Value.map rl by simp [pyGetD, hlr2]]
          -- the second `fixServices` run inserts nothing
          have h2 : fixServices (fixServices (fixRouters m) rl) rl =
              fixServices (fixRouters m) rl := by
            by_cases hany : (rl.any fun p => corrGuard p.2) = true
            · exact fixServices_of_hasKey rl (hasKeyV_fixServices_services hany)
            · rw [Bool.not_eq_true] at hany
              exact fixServices_of_notAny hany
          simp [h2]
      · -- no `routers` key even after the insert: the section is unchanged
        rw [Bool.not_eq_true, hasKeyV_fixRouters_routers] at hkr
        have hr : hasKeyV m "routers" = false := by
          cases hh : hasKeyV m "routers" <;> simp [hh] at hkr ⊢
        have hs : hasKeyV m "services" = false := by
          cases hh : hasKeyV m "services" <;> simp [hh] at hkr ⊢
        have hfix : fixRouters m = m := by simp [fixRouters, hr, hs]
        rw [hfix] at h
        have hlr : lookupV m "routers" = none := lookupV_eq_none_iff.mpr hr
        rw [show pyGetD m "routers" (.map []) = Value.map [] by
          simp [pyGetD, hlr]] at h
        have hsvc : fixServices m [] = m := by simp [fixServices]
        simp at h
        subst h
        rw [hsvc]
        simp [fixSection, hmw, hfix, pyGetD, hlr, hsvc]
  | null => exact absurd h (by simp [fixSection])
  | bool b => exact absurd h (by simp [fixSection])
  | int n => exact absurd h (by simp [fixSection])
  | str s => exact absurd h (by simp [fixSection])
  | seq l => exact absurd h (by simp [fixSection])

theorem correctSection_lookup_ne {cfg cfg' : Doc} {n k : String}
    (h : correctSection cfg n = some cfg') (hk : k ≠ n) :
    lookupV cfg' k = lookupV cfg k := by
  unfold correctSection at h
  cases hl : lookupV cfg n with
  | none => rw [hl] at h; simp at h; subst h; rfl
  | some sc =>
    rw [hl] at h
    simp only [] at h
    cases hf : fixSection sc with
    | none => rw [hf] at h; simp at h
    | some sc' =>
      rw [hf] at h
      simp at h
      subst h
      exact lookupV_setFirst_ne cfg _ hk

/-- If `correctSection` sent `d` to `e`, it fixes any document whose
section value already equals `e`'s. -/
theorem correctSection_again {n : String} {d e f : Doc}
    (h : correctSection d n = some e) (hf : lookupV f n = lookupV e n) :
    correctSection f n = some f := by
  unfold correctSection at h
  cases hl : lookupV d n with
  | none =>
    rw [hl] at h
    simp at h
    subst h
    rw [hl] at hf
    unfold correctSection
    rw [hf]
  | some sc =>
    rw [hl] at h
    simp only [] at h
    cases hfx : fixSection sc with
    | none => rw [hfx] at h; simp at h
    | some sc' =>
      rw [hfx] at h
      simp at h
      subst h
      have he : lookupV (setFirst d n sc') n = some sc' :=
        lookupV_setFirst_self sc' (by unfold hasKeyV; rw [hl]; rfl)
      rw [he] at hf
      unfold correctSection
      rw [hf]
      simp only []
      rw [fixSection_idem hfx]
      simp only []
      rw [setFirst_self hf]

theorem fixRouters_shape (m : Doc) :
    ∃ t, fixRouters m = m ++ t ∧
      ∀ p ∈ t, (p.1 = "routers" ∨ p.1 = "services") ∧ p.2 = Value.map [] := by
  unfold fixRouters
  split
  · exact ⟨[("routers", Value.map [])], rfl, by simp⟩
  · exact ⟨[], by simp, by simp⟩

theorem fixServices_shape (m1 : Doc) (rl : List (String × Value)) :
    ∃ t, fixServices m1 rl = m1 ++ t ∧
      ∀ p ∈ t, (p.1 = "routers" ∨ p.1 = "services") ∧ p.2 = Value.map [] := by
  unfold fixServices
  split
  · exact ⟨[("services", Value.map [])], rfl, by simp⟩
  · exact ⟨[], by simp, by simp⟩

/-- The corrector's section body returns the section unchanged or with
only empty containers appended. -/
theorem fixSection_shape {m : Doc} {sc' : Value}
    (h : fixSection (.map m) = some sc') :
    sc' = .map m ∨ SectionExt (.map m) sc' := by
  by_cases hmw : mwOnly m = true
  · simp [fixSection, hmw] at h
    left
    exact h.symm
  · rw [Bool.not_eq_true] at hmw
    simp only [fixSection, hmw] at h
    cases hrv : pyGetD (fixRouters m) "routers" (.map []) with
    | map rl =>
      rw [hrv] at h
      simp at h
      obtain ⟨t1, he1, hp1⟩ := fixRouters_shape m
      obtain ⟨t2, he2, hp2⟩ := fixServices_shape (fixRouters m) rl
      rw [he2, he1, List.append_assoc] at h
      by_cases ht : t1 ++ t2 = []
      · left
        rw [← h, ht]
        simp
      · right
        refine ⟨m, t1 ++ t2, rfl, h.symm, ht, hmw, ?_⟩
        intro p hp
        rcases List.mem_append.mp hp with hp' | hp'
        · exact hp1 p hp'
        · exact hp2 p hp'
    | null => rw [hrv] at h; simp at h
    | bool b => rw [hrv] at h; simp at h
    | int n => rw [hrv] at h; simp at h
    | str s => rw [hrv] at h; simp at h
    | seq l => rw [hrv] at h; simp at h

theorem sectionExt_trans {a b c : Value}
    (h1 : SectionExt a b) (h2 : SectionExt b c) : SectionExt a c := by
  obtain ⟨m, t, ha, hb, ht, hmw, hp⟩ := h1
  obtain ⟨m2, t2, hb2, hc, ht2, hmw2, hp2⟩ := h2
  rw [hb] at hb2
  injection hb2 with hm2
  subst hm2
  refine ⟨m, t ++ t2, ha, ?_, ?_, hmw, ?_⟩
  · rw [hc, List.append_assoc]
  · intro hnil
    exact ht (List.append_eq_nil.mp hnil).1
  · intro p hp'
    rcases List.mem_append.mp hp' with hx | hx
    · exact hp p hx
    · exact hp2 p hx

theorem frameRel_refl (p : String × Value) : FrameRel p p := ⟨rfl, Or.inl rfl⟩

theorem frameRel_trans {p q r : String × Value}
    (h1 : FrameRel p q) (h2 : FrameRel q r) : FrameRel p r := by
  obtain ⟨hk1, hv1⟩ := h1
  obtain ⟨hk2, hv2⟩ := h2
  refine ⟨hk1.trans hk2, ?_⟩
  rcases hv1 with he1 | ⟨hp1, hx1⟩
  · rcases hv2 with he2 | ⟨hp2, hx2⟩
    · left; rw [he2, he1]
    · right
      refine ⟨by rw [hk1]; exact hp2, ?_⟩
      rw [he1] at hx2
      exact hx2
  · rcases hv2 with he2 | ⟨hp2, hx2⟩
    · right
      refine ⟨hp1, ?_⟩
      rw [he2]
      exact hx1
    · exact Or.inr ⟨hp1, sectionExt_trans hx1 hx2⟩

theorem forall₂_frame_refl (l : Doc) : List.Forall₂ FrameRel l l := by
  induction l with
  | nil => exact .nil
  | cons a t ih => exact .cons (frameRel_refl a) ih

theorem forall₂_frame_trans {l1 l2 l3 : Doc}
    (h1 : List.Forall₂ FrameRel l1 l2) (h2 : List.Forall₂ FrameRel l2 l3) :
    List.Forall₂ FrameRel l1 l3 := by
  induction h1 generalizing l3 with
  | nil => cases h2; exact .nil
  | cons hr hrest ih =>
    cases h2 with
    | cons hr2 hrest2 => exact .cons (frameRel_trans hr hr2) (ih hrest2)

theorem setFirst_frame {cfg : Doc} {n : String} {sc sc' : Value}
    (hn : protoKey n) (hl : lookupV cfg n = some sc)
    (hrel : sc' = sc ∨ SectionExt sc sc') :
    List.Forall₂ FrameRel cfg (setFirst cfg n sc') := by
  induction cfg with
  | nil => simp [lookupV] at hl
  | cons a t ih =>
    obtain ⟨ka, w⟩ := a
    by_cases hk : ka = n
    · simp only [lookupV, hk, if_true] at hl
      have hw : w = sc := by injection hl
      subst hw
      subst hk
      simp only [setFirst, if_pos rfl]
      refine .cons ⟨rfl, ?_⟩ (forall₂_frame_refl t)
      rcases hrel with he | hx
      · left; exact he
      · right; exact ⟨hn, hx⟩
    · simp only [lookupV, hk, if_false] at hl
      simp only [setFirst, hk, if_false]
      exact .cons (frameRel_refl _) (ih hl)

theorem correctSection_frame {cfg cfg' : Doc} {n : String}
    (hn : protoKey n) (h : correctSection cfg n = some cfg') :
    List.Forall₂ FrameRel cfg cfg' := by
  unfold correctSection at h
  cases hl : lookupV cfg n with
  | none =>
    rw [hl] at h
    simp at h
    subst h
    exact forall₂_frame_refl cfg
  | some sc =>
    rw [hl] at h
    simp only [] at h
    cases hfx : fixSection sc with
    | none => rw [hfx] at h; simp at h
    | some sc' =>
      rw [hfx] at h
      simp at h
      subst h
      cases sc with
      | map m => exact setFirst_frame hn hl (fixSection_shape hfx)
      | null => exact absurd hfx (by simp [fixSection])
      | bool b => exact absurd hfx (by simp [fixSection])
      | int k => exact absurd hfx (by simp [fixSection])
      | str s => exact absurd hfx (by simp [fixSection])
      | seq l => exact absurd hfx (by simp [fixSection])

/-! ## No other emitted message equals the no-config message -/

theorem ne_noConfigMsg_of_head {s : String}
    (h : s.data.head? ≠ noConfigMsg.data.head?) : s ≠ noConfigMsg :=
  fun hh => h (by rw [hh])

theorem head_append_of_ne {a : String} (b : String) (h : a.data ≠ []) :
    (a ++ b).data.head? = a.data.head? := by
  rw [String.data_append]
  cases hd : a.data with
  | nil => exact absurd hd h
  | cons c t => simp

@[simp] theorem noConfig_ne_ep : noConfigMsg ≠ epMsg := by decide

@[simp] theorem noConfig_ne_secNotDict (sec : String) :
    noConfigMsg ≠ secNotDictMsg sec :=
  Ne.symm (ne_noConfigMsg_of_head (by
    unfold secNotDictMsg
    rw [head_append_of_ne _ (by decide)]
    decide))

@[simp] theorem noConfig_ne_routersNotDict (sec : String) :
    noConfigMsg ≠ routersNotDictMsg sec :=
  Ne.symm (ne_noConfigMsg_of_head (by
    unfold routersNotDictMsg
    rw [head_append_of_ne _ (by decide)]
    decide))

@[simp] theorem noConfig_ne_routerNotDict (rn U : String) :
    noConfigMsg ≠ routerNotDictMsg rn U :=
  Ne.symm (ne_noConfigMsg_of_head (by
    unfold routerNotDictMsg
    rw [head_append_of_ne _ (by decide)]
    decide))

@[simp] theorem noConfig_ne_ruleMissing (rn U : String) :
    noConfigMsg ≠ ruleMissingMsg rn U :=
  Ne.symm (ne_noConfigMsg_of_head (by
    unfold ruleMissingMsg
    rw [head_append_of_ne _ (by decide)]
    decide))

@[simp] theorem noConfig_ne_ruleType (rn U : String) :
    noConfigMsg ≠ ruleTypeMsg rn U :=
  Ne.symm (ne_noConfigMsg_of_head (by
    unfold ruleTypeMsg
    rw [head_append_of_ne _ (by decide)]
    decide))

@[simp] theorem noConfig_ne_svcType (rn U : String) :
    noConfigMsg ≠ svcTypeMsg rn U :=
  Ne.symm (ne_noConfigMsg_of_head (by
    unfold svcTypeMsg
    rw [head_append_of_ne _ (by decide)]
    decide))

@[simp] theorem noConfig_ne_undefSvc (rn U sv : String) :
    noConfigMsg ≠ undefSvcMsg rn U sv :=
  Ne.symm (ne_noConfigMsg_of_head (by
    unfold undefSvcMsg
    rw [head_append_of_ne _ (by decide)]
    decide))

@[simp] theorem noConfig_ne_missingServices (U : String) :
    noConfigMsg ≠ missingServicesMsg U :=
  Ne.symm (ne_noConfigMsg_of_head (by
    unfold missingServicesMsg
    rw [head_append_of_ne _ (by decide)]
    decide))

@[simp] theorem noConfig_ne_missingRouters (U : String) :
    noConfigMsg ≠ missingRoutersMsg U :=
  Ne.symm (ne_noConfigMsg_of_head (by
    unfold missingRoutersMsg
    rw [head_append_of_ne _ (by decide)]
    decide))

/-- The per-router loop never introduces the no-config message. -/
theorem routerChecks_noConfig {sec U : String} {services : Value}
    {l : List (String × Value)} {errs' : List String} :
    ∀ {errs : List String},
      routerChecks sec U services l errs = some errs' →
      noConfigMsg ∈ errs' → noConfigMsg ∈ errs := by
  induction l with
  | nil =>
    intro errs h hm
    simp only [routerChecks, Option.some.injEq] at h
    subst h
    exact hm
  | cons a rest ih =>
    intro errs h hm
    obtain ⟨rn, rc⟩ := a
    cases rc with
    | map rcm =>
      simp only [routerChecks] at h
      repeat' split at h
      all_goals first
        | exact Option.noConfusion h
        | simpa using ih h hm
    | null => simp only [routerChecks] at h; simpa using ih h hm
    | bool b => simp only [routerChecks] at h; simpa using ih h hm
    | int n => simp only [routerChecks] at h; simpa using ih h hm
    | str s => simp only [routerChecks] at h; simpa using ih h hm
    | seq l2 => simp only [routerChecks] at h; simpa using ih h hm

/-- One section iteration never introduces the no-config message. -/
theorem sectionStep_noConfig {cfg : Doc} {st st' : List String × Option Bool}
    {sec : String} (h : sectionStep cfg st sec = some st')
    (hm : noConfigMsg ∈ st'.1) : noConfigMsg ∈ st.1 := by
  unfold sectionStep at h
  cases hl : lookupV cfg sec with
  | none =>
    rw [hl] at h
    simp at h
    subst h
    exact hm
  | some sc =>
    rw [hl] at h
    cases sc with
    | map scm =>
      simp only [] at h
      by_cases hmw : mwOnly scm = true
      · simp [hmw] at h
        subst h
        exact hm
      · rw [if_neg (by simp [hmw])] at h
        cases hrt : pyGetD scm "routers" (.map []) with
        | map rl =>
          rw [hrt] at h
          simp only [] at h
          cases hrc : routerChecks sec (upperStr sec)
              (pyGetD scm "services" (.map [])) rl st.1 with
          | none => rw [hrc] at h; simp at h
          | some errs1 =>
            rw [hrc] at h
            simp only [] at h
            cases hrf : (if rl.isEmpty then st.2
                else refLoop (lastVal rl) (rl.map Prod.snd)) with
            | none => rw [hrf] at h; simp at h
            | some refN =>
              rw [hrf] at h
              simp only [] at h
              injection h with h2
              subst h2
              simp only [] at hm
              have key : noConfigMsg ∈ errs1 := by
                repeat' split at hm
                all_goals simpa using hm
              exact routerChecks_noConfig hrc key
        | null =>
          rw [hrt] at h; simp only [] at h
          injection h with h2; subst h2; simpa using hm
        | bool b =>
          rw [hrt] at h; simp only [] at h
          injection h with h2; subst h2; simpa using hm
        | int n =>
          rw [hrt] at h; simp only [] at h
          injection h with h2; subst h2; simpa using hm
        | str s =>
          rw [hrt] at h; simp only [] at h
          injection h with h2; subst h2; simpa using hm
        | seq l2 =>
          rw [hrt] at h; simp only [] at h
          injection h with h2; subst h2; simpa using hm
    | null => simp only [] at h; injection h with h2; subst h2; simpa using hm
    | bool b => simp only [] at h; injection h with h2; subst h2; simpa using hm
    | int n => simp only [] at h; injection h with h2; subst h2; simpa using hm
    | str s => simp only [] at h; injection h with h2; subst h2; simpa using hm
    | seq l2 => simp only [] at h; injection h with h2; subst h2; simpa using hm

theorem sectionsFold_noConfig {cfg : Doc} {names : List String}
    {st' : List String × Option Bool} :
    ∀ {st : List String × Option Bool},
      sectionsFold cfg names st = some st' →
      noConfigMsg ∈ st'.1 → noConfigMsg ∈ st.1 := by
  induction names with
  | nil =>
    intro st h hm
    simp only [sectionsFold, Option.some.injEq] at h
    subst h
    exact hm
  | cons n rest ih =>
    intro st h hm
    simp only [sectionsFold] at h
    cases hs : sectionStep cfg st n with
    | none => rw [hs] at h; simp at h
    | some st1 =>
      rw [hs] at h
      simp only [] at h
      exact sectionStep_noConfig hs (ih h hm)

/-! ## Error accumulation is monotone; the undefined-service check -/

theorem routerChecks_mem_mono {sec U : String} {services : Value}
    {l : List (String × Value)} {errs' : List String} {msg : String} :
    ∀ {errs : List String}, msg ∈ errs →
      routerChecks sec U services l errs = some errs' → msg ∈ errs' := by
  induction l with
  | nil =>
    intro errs hm h
    simp only [routerChecks, Option.some.injEq] at h
    subst h
    exact hm
  | cons a rest ih =>
    intro errs hm h
    obtain ⟨rn, rc⟩ := a
    cases rc with
    | map rcm =>
      simp only [routerChecks] at h
      repeat' split at h
      all_goals first
        | exact Option.noConfusion h
        | exact ih (by simp [hm]) h
    | null => simp only [routerChecks] at h; exact ih (by simp [hm]) h
    | bool b => simp only [routerChecks] at h; exact ih (by simp [hm]) h
    | int n => simp only [routerChecks] at h; exact ih (by simp [hm]) h
    | str s => simp only [routerChecks] at h; exact ih (by simp [hm]) h
    | seq l2 => simp only [routerChecks] at h; exact ih (by simp [hm]) h

/-- If some router of the section is a mapping whose `service` is a
truthy non-internal string not found in the section's own `services`,
the per-router loop records the undefined-service error for it. -/
theorem routerChecks_undef {sec U : String} {services : Value}
    {l : List (String × Value)} {errs' : List String} {rn sv : String}
    {rc : List (String × Value)} :
    ∀ {errs : List String},
      (rn, Value.map rc) ∈ l →
      lookupV rc "service" = some (.str sv) → sv ≠ "" →
      endsWithStr sv "@internal" = false →
      pyIn sv services = some false →
      routerChecks sec U services l errs = some errs' →
      undefSvcMsg rn U sv ∈ errs' := by
  induction l with
  | nil => intro errs hin; simp at hin
  | cons a rest ih =>
    intro errs hin hsvc hne hends hpy h
    rcases List.mem_cons.mp hin with heq | htail
    · -- this entry is the matching router
      subst heq
      simp only [routerChecks] at h
      have hp : pyGet rc "service" = Value.str sv := by simp [pyGet, hsvc]
      rw [hp] at h
      have ht : truthy (Value.str sv) = true := by simp [truthy, hne]
      rw [ht] at h
      simp only [if_true, hends, hpy] at h
      simp only [Bool.not_false, if_true] at h
      exact routerChecks_mem_mono (by simp) h
    · -- the matching router is further along: step once, then recurse
      cases rc2 : a.2 with
      | map rcm =>
        obtain ⟨rn2, rv2⟩ := a
        simp only [] at rc2
        subst rc2
        simp only [routerChecks] at h
        repeat' split at h
        all_goals first
          | exact Option.noConfusion h
          | exact ih htail hsvc hne hends hpy h
      | null =>
        obtain ⟨rn2, rv2⟩ := a
        simp only [] at rc2
        subst rc2
        simp only [routerChecks] at h
        exact ih htail hsvc hne hends hpy h
      | bool b =>
        obtain ⟨rn2, rv2⟩ := a
        simp only [] at rc2
        subst rc2
        simp only [routerChecks] at h
        exact ih htail hsvc hne hends hpy h
      | int n =>
        obtain ⟨rn2, rv2⟩ := a
        simp only [] at rc2
        subst rc2
        simp only [routerChecks] at h
        exact ih htail hsvc hne hends hpy h
      | str s =>
        obtain ⟨rn2, rv2⟩ := a
        simp only [] at rc2
        subst rc2
        simp only [routerChecks] at h
        exact ih htail hsvc hne hends hpy h
      | seq l2 =>
        obtain ⟨rn2, rv2⟩ := a
        simp only [] at rc2
        subst rc2
        simp only [routerChecks] at h
        exact ih htail hsvc hne hends hpy h

theorem mwOnly_false_of_routers {scm : Doc}
    (hr : hasKeyV scm "routers" = true) : mwOnly scm = false := by
  induction scm with
  | nil => simp [hasKeyV, lookupV] at hr
  | cons a t ih =>
    obtain ⟨k, v⟩ := a
    by_cases hk : k = "routers"
    · subst hk
      simp [mwOnly]
    · have ht : hasKeyV t "routers" = true := by
        simpa [hasKeyV, lookupV, hk] using hr
      have := ih ht
      simp only [mwOnly, List.all_cons] at this ⊢
      simp [this]

/-- One section iteration preserves recorded errors. -/
theorem sectionStep_mem_mono {cfg : Doc} {st st' : List String × Option Bool}
    {sec msg : String} (hm : msg ∈ st.1)
    (h : sectionStep cfg st sec = some st') : msg ∈ st'.1 := by
  unfold sectionStep at h
  cases hl : lookupV cfg sec with
  | none =>
    rw [hl] at h
    simp at h
    subst h
    exact hm
  | some sc =>
    rw [hl] at h
    cases sc with
    | map scm =>
      simp only [] at h
      by_cases hmw : mwOnly scm = true
      · simp [hmw] at h
        subst h
        exact hm
      · rw [if_neg (by simp [hmw])] at h
        cases hrt : pyGetD scm "routers" (.map []) with
        | map rl =>
          rw [hrt] at h
          simp only [] at h
          cases hrc : routerChecks sec (upperStr sec)
              (pyGetD scm "services" (.map [])) rl st.1 with
          | none => rw [hrc] at h; simp at h
          | some errs1 =>
            rw [hrc] at h
            simp only [] at h
            cases hrf : (if rl.isEmpty then st.2
                else refLoop (lastVal rl) (rl.map Prod.snd)) with
            | none => rw [hrf] at h; simp at h
            | some refN =>
              rw [hrf] at h
              simp only [] at h
              injection h with h2
              subst h2
              simp only []
              have he1 : msg ∈ errs1 := routerChecks_mem_mono hm hrc
              repeat' split
              all_goals simp [he1]
        | null =>
          rw [hrt] at h; simp only [] at h
          injection h with h2; subst h2; simp [hm]
        | bool b =>
          rw [hrt] at h; simp only [] at h
          injection h with h2; subst h2; simp [hm]
        | int n =>
          rw [hrt] at h; simp only [] at h
          injection h with h2; subst h2; simp [hm]
        | str s =>
          rw [hrt] at h; simp only [] at h
          injection h with h2; subst h2; simp [hm]
        | seq l2 =>
          rw [hrt] at h; simp only [] at h
          injection h with h2; subst h2; simp [hm]
    | null => simp only [] at h; injection h with h2; subst h2; simp [hm]
    | bool b => simp only [] at h; injection h with h2; subst h2; simp [hm]
    | int n => simp only [] at h; injection h with h2; subst h2; simp [hm]
    | str s => simp only [] at h; injection h with h2; subst h2; simp [hm]
    | seq l2 => simp only [] at h; injection h with h2; subst h2; simp [hm]

theorem sectionsFold_mem_mono {cfg : Doc} {names : List String}
    {st' : List String × Option Bool} {msg : String} :
    ∀ {st : List String × Option Bool}, msg ∈ st.1 →
      sectionsFold cfg names st = some st' → msg ∈ st'.1 := by
  induction names with
  | nil =>
    intro st hm h
    simp only [sectionsFold, Option.some.injEq] at h
    subst h
    exact hm
  | cons n rest ih =>
    intro st hm h
    simp only [sectionsFold] at h
    cases hs : sectionStep cfg st n with
    | none => rw [hs] at h; simp at h
    | some st1 =>
      rw [hs] at h
      simp only [] at h
      exact ih (sectionStep_mem_mono hm hs) h

/-- Processing the `http` section records the undefined-service error for
a router whose truthy non-internal string `service` is not a key of the
section's own `services`. -/
theorem sectionStep_undef {cfg : Doc} {st st' : List String × Option Bool}
    {scm rl rc : List (String × Value)} {rn sv : String}
    (hl : lookupV cfg "http" = some (.map scm))
    (hr : lookupV scm "routers" = some (.map rl))
    (hin : (rn, Value.map rc) ∈ rl)
    (hsvc : lookupV rc "service" = some (.str sv))
    (hne : sv ≠ "") (hends : endsWithStr sv "@internal" = false)
    (hpy : pyIn sv (pyGetD scm "services" (.map [])) = some false)
    (h : sectionStep cfg st "http" = some st') :
    undefSvcMsg rn "HTTP" sv ∈ st'.1 := by
  have hkr : hasKeyV scm "routers" = true := by simp [hasKeyV, hr]
  have hmw : mwOnly scm = false := mwOnly_false_of_routers hkr
  unfold sectionStep at h
  rw [hl] at h
  simp only [] at h
  rw [if_neg (by simp [hmw])] at h
  rw [show pyGetD scm "routers" (.map []) = Value.map rl by
    simp [pyGetD, hr]] at h
  simp only [] at h
  cases hrc : routerChecks "http" (upperStr "http")
      (pyGetD scm "services" (.map [])) rl st.1 with
  | none => rw [hrc] at h; simp at h
  | some errs1 =>
    rw [hrc] at h
    simp only [] at h
    cases hrf : (if rl.isEmpty then st.2
        else refLoop (lastVal rl) (rl.map Prod.snd)) with
    | none => rw [hrf] at h; simp at h
    | some refN =>
      rw [hrf] at h
      simp only [] at h
      injection h with h2
      subst h2
      simp only []
      have hu : undefSvcMsg rn (upperStr "http") sv ∈ errs1 :=
        routerChecks_undef hin hsvc hne hends hpy hrc
      have hup : upperStr "http" = "HTTP" := by decide
      rw [hup] at hu
      repeat' split
      all_goals simp [hu]

/-! ## Sanity checks mirroring the repository's unit tests -/

example :
    validate_traefik_config
      [("entryPoints", .map [("web", .map [("address", .str ":80")])]),
       ("http", .map
         [("routers", .map [("router1", .map
            [("rule", .str "Host(x)"), ("service", .str "service1")])]),
          ("services", .map [("service1", .map [])])])] = some [] := by decide

example :
    validate_traefik_config
      [("entryPoints", .map [("web", .map [("address", .str ":80")])]),
       ("http", .map [("middlewares", .map [("auth", .map [])])])] = some [] := by
  decide

example :
    validate_traefik_config
      [("entryPoints", .map [("web", .map [("address", .str ":80")])]),
       ("http", .map
         [("routers", .map [("r1", .map [("service", .str "s1")])])])] =
      some [ruleMissingMsg "r1" "HTTP", undefSvcMsg "r1" "HTTP" "s1",
        missingServicesMsg "HTTP"] := by decide

example :
    validate_traefik_config [("entryPoints", .map [])] = some [noConfigMsg] := by
  decide

example :
    validate_traefik_config [("some_other_yaml", .map [("key", .str "value")])] =
      some [noConfigMsg] := by decide

example : validate_traefik_config [] = some [] := by decide

/-! ## Claims -/

/-- C1.  The claim says `validate_traefik_config` never raises: a type
mismatch anywhere in the document is reported as an error entry.  The code
violates this: on a document whose `http` section has an *empty* `routers`
mapping, the flag `references_noninternal_service` is never assigned
(it is only set under `if routers:`) yet is read unconditionally at line
137, so the function raises `UnboundLocalError` (`none` here) instead of
returning the error list. -/
theorem validator_raises_on_empty_routers :
    validate_traefik_config
      [("entryPoints", .map [("web", .map [("address", .str ":80")])]),
       ("http", .map [("routers", .map [])])] = none := by decide

/-- C3.  The claim says the cross-check message is emitted iff *some*
router of the section has a truthy string `service` not ending in
`@internal` while `services` is missing/invalid/empty.  The code instead
tests `router_config.get('service')` -- the leaked loop variable holding
the LAST router of the section.  Here router `a` references the
non-internal service `web` and `services` is missing, so the claim
requires the message, but the last router `b` references `x@internal`,
so the code never emits it: the full output is just the
undefined-service error for `a`. -/
theorem cross_check_misses_first_router_reference :
    validate_traefik_config
      [("entryPoints", .map [("web", .map [("address", .str ":80")])]),
       ("http", .map [("routers", .map
         [("a", .map [("rule", .str "Host(a)"), ("service", .str "web")]),
          ("b", .map [("rule", .str "Host(b)"), ("service", .str "x@internal")])])])] =
      some [undefSvcMsg "a" "HTTP" "web"] := by decide

/-- C5.  The claim says `auto_correct_config` never raises and leaves a
protocol section whose value is not a mapping (e.g. a string) unrepaired.
The code calls `.keys()` on the section value without a type check, so a
string-valued `http` section raises `AttributeError` (`none` here). -/
theorem auto_correct_raises_on_string_section :
    auto_correct_config [("http", .str "oops")] = none := by rfl

/-- C2 counterexample.  The claim says any document with none of the four
Traefik keys yields an *empty* list; but on the nonempty document
`{foo: 1}` the code returns the singleton "No Traefik configuration
found" message, not `[]`. -/
theorem validate_no_keys_not_empty_list :
    validate_traefik_config [("foo", .int 1)] ≠ some [] := by decide

/-- C2 (amended).  For every document in which none of `http`, `tcp`,
`udp`, `entryPoints` is present, `validate_traefik_config` returns the
empty list when the document itself is empty, and otherwise returns
exactly the singleton "No Traefik configuration found" message. -/
theorem validate_no_traefik_keys (cfg : Doc)
    (h1 : lookupV cfg "http" = none) (h2 : lookupV cfg "tcp" = none)
    (h3 : lookupV cfg "udp" = none) (h4 : lookupV cfg "entryPoints" = none) :
    validate_traefik_config cfg =
      some (if cfg.isEmpty then [] else [noConfigMsg]) := by
  unfold validate_traefik_config
  by_cases hc : cfg.isEmpty
  · simp [hc]
  · simp [hc, hasKeyV, h1, h2, h3, h4]

theorem validate_no_traefik_keys_witness :
    validate_traefik_config [("foo", .int 1)] = some [noConfigMsg] := by
  have h := validate_no_traefik_keys [("foo", .int 1)] rfl rfl rfl rfl
  simpa using h

/-- C4 counterexample.  The claim says that when `entryPoints` is the only
Traefik-relevant key and its value is empty *or invalid (not a mapping)*,
the result is exactly the singleton "No Traefik configuration found"
message.  But for the truthy non-mapping value `"x"` the reset at line 72
is skipped (`not config['entryPoints']` is false), and the result is the
entryPoints error instead. -/
theorem validate_truthy_nondict_entrypoints_alone :
    validate_traefik_config [("entryPoints", .str "x")] ≠ some [noConfigMsg] ∧
      validate_traefik_config [("entryPoints", .str "x")] = some [epMsg] := by
  constructor
  · decide
  · decide

/-- C4 (amended).  When `entryPoints` is the only Traefik-relevant key
present and its value is *falsy* (empty mapping, or any other falsy
value), the error list collapses to exactly the singleton "No Traefik
configuration found" message.  (A truthy non-mapping value instead yields
the entryPoints error.) -/
theorem validate_only_falsy_entrypoints (cfg : Doc) (v : Value)
    (h1 : lookupV cfg "http" = none) (h2 : lookupV cfg "tcp" = none)
    (h3 : lookupV cfg "udp" = none) (h4 : lookupV cfg "entryPoints" = some v)
    (h5 : truthy v = false) :
    validate_traefik_config cfg = some [noConfigMsg] := by
  have hc : cfg.isEmpty = false := by
    cases cfg with
    | nil => simp [lookupV] at h4
    | cons a t => simp [List.isEmpty]
  unfold validate_traefik_config
  simp [hc, hasKeyV, pyGet, h1, h2, h3, h4, h5, epMsg, epErrs]

theorem validate_only_falsy_entrypoints_witness :
    validate_traefik_config [("entryPoints", .map [])] = some [noConfigMsg] :=
  validate_only_falsy_entrypoints [("entryPoints", .map [])] (.map [])
    rfl rfl rfl rfl rfl

/-- C8.  A router's service reference is resolved only against the same
protocol section's `services`: if an `http` router's `service` is a
truthy string not ending in `@internal` and is not found in
`http.services` (Python `in` on the section's own resolved `services`),
then whenever validation returns, the "references undefined service"
error for that router is in the result -- regardless of the name being
defined in `tcp.services`. -/
theorem validate_cross_section_isolated
    {cfg : Doc} {scm rl rc tm sl : List (String × Value)}
    {rn sv : String} {errs : List String}
    (hhttp : lookupV cfg "http" = some (.map scm))
    (hr : lookupV scm "routers" = some (.map rl))
    (hin : (rn, Value.map rc) ∈ rl)
    (hsvc : lookupV rc "service" = some (.str sv))
    (hne : sv ≠ "")
    (hends : endsWithStr sv "@internal" = false)
    (hnotown : pyIn sv (pyGetD scm "services" (.map [])) = some false)
    (htcp : lookupV cfg "tcp" = some (.map tm))
    (htcpsvc : lookupV tm "services" = some (.map sl))
    (hother : hasKeyV sl sv = true)
    (h : validate_traefik_config cfg = some errs) :
    undefSvcMsg rn "HTTP" sv ∈ errs := by
  have hkH : hasKeyV cfg "http" = true := by simp [hasKeyV, hhttp]
  have hcne : cfg.isEmpty = false := by
    cases cfg with
    | nil => simp [lookupV] at hhttp
    | cons a t => simp [List.isEmpty]
  unfold validate_traefik_config at h
  rw [if_neg (by simp [hcne])] at h
  simp only [] at h
  rw [if_neg (by simp [hkH])] at h
  rw [if_neg (by simp [hkH])] at h
  rw [Option.map_eq_some'] at h
  obtain ⟨st3, hsf, hfst⟩ := h
  subst hfst
  simp only [sectionsFold] at hsf
  cases hs1 : sectionStep cfg (epErrs cfg, none) "http" with
  | none => rw [hs1] at hsf; simp at hsf
  | some st1 =>
    rw [hs1] at hsf
    simp only [] at hsf
    have hsf2 : sectionsFold cfg ["tcp", "udp"] st1 = some st3 := hsf
    exact sectionsFold_mem_mono
      (sectionStep_undef hhttp hr hin hsvc hne hends hnotown hs1) hsf2

theorem validate_cross_section_isolated_witness :
    validate_traefik_config
      [("entryPoints", .map [("web", .map [("address", .str ":80")])]),
       ("http", .map [("routers", .map [("router1", .map
          [("rule", .str "Host(x)"), ("service", .str "service1")])])]),
       ("tcp", .map [("services", .map [("service1", .map [])])])] =
      some [undefSvcMsg "router1" "HTTP" "service1", missingServicesMsg "HTTP"] ∧
    undefSvcMsg "router1" "HTTP" "service1" ∈
      [undefSvcMsg "router1" "HTTP" "service1", missingServicesMsg "HTTP"] :=
  ⟨by decide,
    @validate_cross_section_isolated
      [("entryPoints", .map [("web", .map [("address", .str ":80")])]),
       ("http", .map [("routers", .map [("router1", .map
          [("rule", .str "Host(x)"), ("service", .str "service1")])])]),
       ("tcp", .map [("services", .map [("service1", .map [])])])]
      [("routers", .map [("router1", .map
        [("rule", .str "Host(x)"), ("service", .str "service1")])])]
      [("router1", .map [("rule", .str "Host(x)"), ("service", .str "service1")])]
      [("rule", .str "Host(x)"), ("service", .str "service1")]
      [("services", .map [("service1", .map [])])]
      [("service1", .map [])]
      "router1" "service1"
      [undefSvcMsg "router1" "HTTP" "service1", missingServicesMsg "HTTP"]
      rfl rfl (List.mem_singleton.mpr rfl) rfl (by decide) (by decide) rfl
      rfl rfl rfl (by decide)⟩

/-- C9.  The corrector counts a truthy non-string `service` value as a
non-internal reference: a section (given as a mapping with a `routers`
mapping, hence not middleware-only) containing such a router and lacking
a `services` key gets an empty `services` mapping inserted.  The
validator's cross-check (`refLoop`), by contrast, can only come out true
on a string-valued reference: whenever it returns `True`, the consulted
`service` value is a string not ending in `@internal`. -/
theorem corrector_counts_nonstring_service :
    (∀ (m rl rc : List (String × Value)) (rn : String) (v : Value),
        lookupV m "routers" = some (.map rl) →
        (rn, Value.map rc) ∈ rl →
        lookupV rc "service" = some v →
        truthy v = true → isStr v = false →
        hasKeyV m "services" = false →
        fixSection (.map m) = some (.map (m ++ [("services", Value.map [])]))) ∧
    (∀ (lastCfg : Value) (l : List Value),
        refLoop lastCfg l = some true →
        ∃ lm sv, lastCfg = Value.map lm ∧ pyGet lm "service" = Value.str sv ∧
          endsWithStr sv "@internal" = false) := by
  constructor
  · intro m rl rc rn v hr hin hsvc htr hnstr hks
    have hkr : hasKeyV m "routers" = true := by simp [hasKeyV, hr]
    have hmw : mwOnly m = false := mwOnly_false_of_routers hkr
    have hfr : fixRouters m = m := fixRouters_eq_of_hasKey hkr
    have hp : pyGet rc "service" = v := by simp [pyGet, hsvc]
    have hguard : corrGuard (Value.map rc) = true := by
      cases v with
      | str s => simp [isStr] at hnstr
      | null => simp [truthy] at htr
      | bool b => simp [corrGuard, hasKeyV, hsvc, hp, htr]
      | int n => simp [corrGuard, hasKeyV, hsvc, hp, htr]
      | seq l2 => simp [corrGuard, hasKeyV, hsvc, hp, htr]
      | map mm => simp [corrGuard, hasKeyV, hsvc, hp, htr]
    have hany : (rl.any fun p => corrGuard p.2) = true :=
      List.any_eq_true.mpr ⟨(rn, Value.map rc), hin, hguard⟩
    simp only [fixSection]
    rw [if_neg (by simp [hmw]), hfr]
    rw [show pyGetD m "routers" (.map []) = Value.map rl by simp [pyGetD, hr]]
    simp only []
    rw [show fixServices m rl = m ++ [("services", Value.map [])] from by
      unfold fixServices
      simp [hany, hks]]
  · intro lastCfg l h
    induction l with
    | nil => simp [refLoop] at h
    | cons r rest ih =>
      simp only [refLoop] at h
      split at h
      · cases lastCfg with
        | map lm =>
          simp only [] at h
          cases hsv : pyGet lm "service" with
          | str sv =>
            rw [hsv] at h
            simp only [] at h
            split at h
            · rename_i hcond
              exact ⟨lm, sv, rfl, hsv, by simpa using hcond⟩
            · exact ih h
          | null => rw [hsv] at h; simp only [] at h; exact ih h
          | bool b => rw [hsv] at h; simp only [] at h; exact ih h
          | int n => rw [hsv] at h; simp only [] at h; exact ih h
          | seq l2 => rw [hsv] at h; simp only [] at h; exact ih h
          | map mm => rw [hsv] at h; simp only [] at h; exact ih h
        | null => simp at h
        | bool b => simp at h
        | int n => simp at h
        | str s => simp at h
        | seq l2 => simp at h
      · exact ih h

theorem corrector_counts_nonstring_service_witness :
    fixSection (Value.map [("routers", Value.map [("r1", Value.map
        [("service", Value.seq [Value.str "s1"])])])]) =
      some (Value.map ([("routers", Value.map [("r1", Value.map
        [("service", Value.seq [Value.str "s1"])])])] ++
        [("services", Value.map [])])) ∧
    ∃ lm sv, (Value.map [("service", Value.str "web")] : Value) = Value.map lm ∧
      pyGet lm "service" = Value.str sv ∧
      endsWithStr sv "@internal" = false :=
  ⟨corrector_counts_nonstring_service.1
      [("routers", Value.map [("r1", Value.map
        [("service", Value.seq [Value.str "s1"])])])]
      [("r1", Value.map [("service", Value.seq [Value.str "s1"])])]
      [("service", Value.seq [Value.str "s1"])]
      "r1" (Value.seq [Value.str "s1"])
      rfl (List.mem_singleton.mpr rfl) rfl rfl rfl rfl,
    corrector_counts_nonstring_service.2
      (Value.map [("service", Value.str "web")])
      [Value.map [("service", Value.str "web")]] rfl⟩

/-- C10.  Whenever the "No Traefik configuration found" message appears in
a result of `validate_traefik_config`, it is the entire result: the
returned list is exactly that singleton.  (The message is produced only by
the two early returns, and no later check can append it or add to it.) -/
theorem validate_noConfigMsg_singleton {cfg : Doc} {errs : List String}
    (h : validate_traefik_config cfg = some errs)
    (hm : noConfigMsg ∈ errs) : errs = [noConfigMsg] := by
  unfold validate_traefik_config at h
  by_cases hc : cfg.isEmpty = true
  · rw [if_pos hc] at h
    injection h with h2
    subst h2
    simp at hm
  · rw [if_neg hc] at h
    simp only [] at h
    split at h
    · injection h with h2
      exact h2.symm
    · split at h
      · injection h with h2
        exact h2.symm
      · rw [Option.map_eq_some'] at h
        obtain ⟨st', hsf, hfst⟩ := h
        subst hfst
        have h0 := sectionsFold_noConfig hsf hm
        simp only [] at h0
        unfold epErrs at h0
        simp only [] at h0
        split at h0
        · split at h0 <;> simp at h0
        · simp at h0

theorem validate_noConfigMsg_singleton_witness :
    validate_traefik_config [("bar", Value.int 2)] = some [noConfigMsg] ∧
      [noConfigMsg] = [noConfigMsg] :=
  ⟨by decide,
    @validate_noConfigMsg_singleton [("bar", Value.int 2)] [noConfigMsg]
      (by decide) (by simp)⟩

/-- C7.  Whenever `auto_correct_config` returns a document, that document
has exactly the input's top-level entries, with the same keys in the same
order; each value is either unchanged, or -- only for a protocol section
(`http`/`tcp`/`udp`) that is not middleware-only -- the same mapping
extended solely by appended empty `routers`/`services` containers.  No
existing key or value is removed or altered. -/
theorem auto_correct_frame {d d' : Doc}
    (h : auto_correct_config d = some d') : List.Forall₂ FrameRel d d' := by
  unfold auto_correct_config at h
  cases h1 : correctSection d "http" with
  | none => rw [h1] at h; simp at h
  | some c1 =>
    rw [h1] at h
    simp only [] at h
    cases h2 : correctSection c1 "tcp" with
    | none => rw [h2] at h; simp at h
    | some c2 =>
      rw [h2] at h
      simp only [] at h
      exact forall₂_frame_trans
        (forall₂_frame_trans
          (correctSection_frame (Or.inl rfl) h1)
          (correctSection_frame (Or.inr (Or.inl rfl)) h2))
        (correctSection_frame (Or.inr (Or.inr rfl)) h)

theorem auto_correct_frame_witness :
    List.Forall₂ FrameRel
      [("http", Value.map [("routers", .map [("r1", .map
         [("rule", .str "Host(x)"), ("service", .str "s1")])])]),
       ("keep", Value.int 7)]
      [("http", Value.map [("routers", .map [("r1", .map
         [("rule", .str "Host(x)"), ("service", .str "s1")])]),
        ("services", Value.map [])]),
       ("keep", Value.int 7)] :=
  auto_correct_frame rfl

/-- C6.  Auto-correction is idempotent:
`correct(correct(d)) == correct(d)` for every document `d`, where the
nested call is the Kleisli composition (a raising run stays a raising
run, and a successful run's output is a fixed point of the corrector). -/
theorem auto_correct_idempotent (d : Doc) :
    (auto_correct_config d).bind auto_correct_config = auto_correct_config d := by
  cases h : auto_correct_config d with
  | none => rfl
  | some d' =>
    simp only [Option.some_bind]
    unfold auto_correct_config at h
    cases h1 : correctSection d "http" with
    | none => rw [h1] at h; simp at h
    | some c1 =>
      rw [h1] at h
      simp only [] at h
      cases h2 : correctSection c1 "tcp" with
      | none => rw [h2] at h; simp at h
      | some c2 =>
        rw [h2] at h
        simp only [] at h
        have e1 : lookupV d' "http" = lookupV c1 "http" := by
          rw [correctSection_lookup_ne h (by decide),
            correctSection_lookup_ne h2 (by decide)]
        have e2 : lookupV d' "tcp" = lookupV c2 "tcp" :=
          correctSection_lookup_ne h (by decide)
        have g1 : correctSection d' "http" = some d' := correctSection_again h1 e1
        have g2 : correctSection d' "tcp" = some d' := correctSection_again h2 e2
        have g3 : correctSection d' "udp" = some d' := correctSection_again h rfl
        unfold auto_correct_config
        rw [g1]
        simp only []
        rw [g2]
        simp only []
        rw [g3]
